import Mathlib

/-!
Verification of the score-aggregation module `src/lib/elo_rating/compare_elo.py`.

The module holds one record type (`MovieObject`, a pair of a title string and
an integer elo score), a module-level list `newList` initialised to the empty
list, a pure summing function `calculateTotalElo`, and a stateful function
`checkAll` that appends freshly computed records onto `newList` and returns it.

Embedding conventions:
- `MovieObject` is a Lean structure with the source's two fields.
- Python `int` is unbounded, so `elo` is `Int`.
- `calculateTotalElo` is a pure function; its two nested `for` loops with an
  accumulator become two nested `List.foldl`.
- `checkAll` reads the module-level list `newList`; we pass that state
  explicitly as the first argument `st` and the initial module state is the
  definition `newList` below.  The Python expression `movieList[0]` raises
  `IndexError` when `movieList` is empty, so `checkAll` returns an `Option`:
  `none` models the raised error.  The loop
  `for i in range(len(movieList[0]))` visits `movieList[0][i]` for each index
  in order, which is a `List.map` over the first group.  The returned value is
  the updated module list (the source returns `newList` itself after the
  appends), so the returned list is also the post-call module state.
-/

structure MovieObject where
  title : String
  elo : Int
deriving DecidableEq

/-- The module-level accumulator list, initialised empty (`newList = []`). -/
def newList : List MovieObject := []

/-- Embedding of `calculateTotalElo(movieList, movieName)`: start from
`totalElo = 0`, traverse every group and every record, and add `y.elo`
whenever `y.title == movieName`. -/
def calculateTotalElo (movieList : List (List MovieObject)) (movieName : String) : Int :=
  movieList.foldl
    (fun totalElo x =>
      x.foldl (fun totalElo y => if y.title = movieName then totalElo + y.elo else totalElo)
        totalElo)
    0

/-- Embedding of `checkAll(movieList)` as a state transformer on the module
list `st`: for each record of the first group in order, append a record built
from its title and `calculateTotalElo` of the whole collection at that title;
the function returns the updated module list.  `none` models the `IndexError`
raised by `movieList[0]` on an empty collection. -/
def checkAll (st : List MovieObject) (movieList : List (List MovieObject)) :
    Option (List MovieObject) :=
  match movieList with
  | [] => none
  | g0 :: rest =>
      some (st ++ g0.map (fun r => MovieObject.mk r.title (calculateTotalElo (g0 :: rest) r.title)))

/-- The sum described by the spec: the arithmetic sum of the `elo` field of
every record, in every group, whose title equals `n` (exact string equality).
Stated from the spec's words, to be compared with `calculateTotalElo`. -/
def sumFor_spec (collection : List (List MovieObject)) (n : String) : Int :=
  ((collection.flatten.filter (fun r => r.title = n)).map MovieObject.elo).sum

/-- Pure-value form of `calculateTotalElo` that also returns the value of its
`movieList` argument after the call.  The source body of `calculateTotalElo`
contains no assignment to `movieList`, to its groups, or to any record field
(its only writes are to the local `totalElo`), so the argument's post-call
value is the argument itself. -/
def calculateTotalEloS (movieList : List (List MovieObject)) (movieName : String) :
    Int × List (List MovieObject) :=
  (calculateTotalElo movieList movieName, movieList)

/-- Form of `checkAll` that also returns the value of its `movieList` argument
after the call.  The source body of `checkAll` contains no assignment to
`movieList`, to its groups, or to any record field: its only write is
`newList.append(movieObj)`, which targets the module list, so the argument's
post-call value is the argument itself. -/
def checkAllS (st : List MovieObject) (movieList : List (List MovieObject)) :
    Option (List MovieObject × List (List MovieObject)) :=
  (checkAll st movieList).map (fun ret => (ret, movieList))

/-! Helper lemmas characterising the two folds of `calculateTotalElo`. -/

theorem innerFold_eq_sum (n : String) (g : List MovieObject) (acc : Int) :
    g.foldl (fun totalElo y => if y.title = n then totalElo + y.elo else totalElo) acc
      = acc + ((g.filter (fun r => r.title = n)).map MovieObject.elo).sum := by
  induction g generalizing acc with
  | nil => simp
  | cons y ys ih =>
      by_cases h : y.title = n
      · simp [List.foldl_cons, List.filter_cons, h, ih]
        ring
      · simp [List.foldl_cons, List.filter_cons, h, ih]

theorem outerFold_eq_sum (n : String) (c : List (List MovieObject)) (acc : Int) :
    c.foldl
        (fun totalElo x =>
          x.foldl (fun totalElo y => if y.title = n then totalElo + y.elo else totalElo)
            totalElo)
        acc
      = acc + ((c.flatten.filter (fun r => r.title = n)).map MovieObject.elo).sum := by
  induction c generalizing acc with
  | nil => simp
  | cons g gs ih =>
      simp only [List.foldl_cons]
      rw [ih, innerFold_eq_sum]
      simp only [List.flatten_cons, List.filter_append, List.map_append, List.sum_append]
      ring

theorem calculateTotalElo_eq_sumFor_spec (c : List (List MovieObject)) (n : String) :
    calculateTotalElo c n = sumFor_spec c n := by
  unfold calculateTotalElo sumFor_spec
  simpa using outerFold_eq_sum n c 0

/-! Claim theorems. -/

/-- Claim C1: for every collection and every name, `calculateTotalElo` returns
exactly the arithmetic sum of the elo fields of every record, in every group,
whose title equals the name under exact case-sensitive string equality; in
particular it returns 0 when no record matches, and 0 when the collection is
empty or contains only empty groups. -/
theorem calculateTotalElo_sums_matching_scores :
    (∀ (c : List (List MovieObject)) (n : String),
        calculateTotalElo c n = sumFor_spec c n) ∧
    (∀ (c : List (List MovieObject)) (n : String),
        (∀ g ∈ c, ∀ r ∈ g, r.title ≠ n) → calculateTotalElo c n = 0) ∧
    (∀ n : String, calculateTotalElo [] n = 0) ∧
    (∀ (c : List (List MovieObject)) (n : String),
        (∀ g ∈ c, g = ([] : List MovieObject)) → calculateTotalElo c n = 0) := by
  refine ⟨calculateTotalElo_eq_sumFor_spec, ?_, fun n => rfl, ?_⟩
  · intro c n h
    rw [calculateTotalElo_eq_sumFor_spec]
    unfold sumFor_spec
    have hf : c.flatten.filter (fun r => r.title = n) = [] := by
      rw [List.filter_eq_nil_iff]
      intro r hr
      rcases List.mem_flatten.mp hr with ⟨g, hg, hrg⟩
      simpa using h g hg r hrg
    rw [hf]
    rfl
  · intro c n h
    rw [calculateTotalElo_eq_sumFor_spec]
    unfold sumFor_spec
    have hf : c.flatten = [] := by
      rw [List.flatten_eq_nil_iff]
      intro g hg
      exact h g hg
    rw [hf]
    rfl

/-- Witness for C1: the no-match clause at a concrete input. -/
theorem calculateTotalElo_sums_matching_scores_witness :
    calculateTotalElo [[MovieObject.mk "A" 2]] "Z" = 0 :=
  calculateTotalElo_sums_matching_scores.2.1 [[MovieObject.mk "A" 2]] "Z" (by decide)

/-- Counterexample to claim C2 as stated: the output of `checkAll` is the
module list, which accumulates across calls.  After one prior call on the
collection `[[{title:"A", elo:1}]]`, calling `checkAll` again on that same
collection returns a list of length 2, not the length 1 of its first group. -/
theorem checkAll_second_call_length_counterexample :
    ((checkAll ((checkAll newList [[MovieObject.mk "A" 1]]).getD [])
        [[MovieObject.mk "A" 1]]).getD []).length
      ≠ ([MovieObject.mk "A" 1] : List MovieObject).length := by
  decide

/-- Claim C2, amended: when `checkAll` is invoked in the initial module state
(`newList` still empty), its output has exactly the length of the first group,
and the i-th output record carries the i-th first-group title together with
`calculateTotalElo` of the whole collection at that title; duplicate titles in
the first group yield duplicate entries in the same positions.  (On later
calls the output additionally carries the previously accumulated entries as a
prefix, so the claim as stated fails then.) -/
theorem checkAll_initial_state_pointwise (g0 : List MovieObject)
    (rest : List (List MovieObject)) (out : List MovieObject)
    (h : checkAll newList (g0 :: rest) = some out) :
    out.length = g0.length ∧
    ∀ (i : Nat) (hi : i < g0.length),
      out[i]? = some (MovieObject.mk (g0.get ⟨i, hi⟩).title
        (calculateTotalElo (g0 :: rest) (g0.get ⟨i, hi⟩).title)) := by
  have hout : out
      = g0.map (fun r => MovieObject.mk r.title (calculateTotalElo (g0 :: rest) r.title)) := by
    simpa [checkAll, newList] using h.symm
  subst hout
  refine ⟨by simp, ?_⟩
  intro i hi
  rw [List.getElem?_map, List.getElem?_eq_getElem hi]
  simp [List.get_eq_getElem]

/-- Witness for the amended C2 at the collection `[[{title:"A", elo:2}]]`. -/
theorem checkAll_initial_state_pointwise_witness :
    ([MovieObject.mk "A" 2].map
        (fun r => MovieObject.mk r.title (calculateTotalElo [[MovieObject.mk "A" 2]] r.title))
        : List MovieObject)[0]?
      = some (MovieObject.mk (([MovieObject.mk "A" 2] : List MovieObject).get ⟨0, by decide⟩).title
          (calculateTotalElo [[MovieObject.mk "A" 2]]
            (([MovieObject.mk "A" 2] : List MovieObject).get ⟨0, by decide⟩).title)) :=
  (checkAll_initial_state_pointwise [MovieObject.mk "A" 2] []
      ([MovieObject.mk "A" 2].map
        (fun (r : MovieObject) =>
          MovieObject.mk r.title (calculateTotalElo [[MovieObject.mk "A" 2]] r.title)))
      (by decide)).2 0 (by decide)

/-- Claim C3: the code contradicts it.  On the empty collection the source
evaluates `movieList[0]`, which raises `IndexError` instead of returning an
empty sequence; the embedding returns `none` there. -/
theorem checkAll_empty_collection_raises :
    checkAll newList [] = none := rfl

/-- Counterexample to claim C4 as stated: the empty collection is well-typed
input, yet `checkAll` does not run to completion on it — the indexing
`movieList[0]` is out of bounds and the embedding yields no result. -/
theorem checkAll_not_total_counterexample :
    (checkAll newList []).isSome = false := rfl

/-- Claim C4, amended: `calculateTotalElo` is total on every well-typed input
(the embedding needs no error case for it), and `checkAll` runs to completion
exactly on the collections that are non-empty; on those, every indexing and
field access is in bounds.  On the empty collection the access `movieList[0]`
is out of bounds and `checkAll` fails. -/
theorem checkAll_succeeds_iff_nonempty :
    (∀ (st : List MovieObject) (ml : List (List MovieObject)),
        ml ≠ [] → (checkAll st ml).isSome = true) ∧
    (∀ st : List MovieObject, checkAll st [] = none) := by
  constructor
  · intro st ml hml
    match ml with
    | [] => exact absurd rfl hml
    | g0 :: rest => simp [checkAll]
  · intro st
    rfl

/-- Witness for the amended C4 at a concrete non-empty collection. -/
theorem checkAll_succeeds_iff_nonempty_witness :
    (checkAll newList [[MovieObject.mk "A" 2]]).isSome = true :=
  checkAll_succeeds_iff_nonempty.1 newList [[MovieObject.mk "A" 2]] (by decide)

/-- Claim C5: the code contradicts it.  Calling `checkAll` twice in succession
on the same unmodified collection `[[{title:"B", elo:5}]]` yields different
output sequences: the second call returns the module list grown to length 2,
while the first call returned a list of length 1. -/
theorem checkAll_repeated_calls_differ :
    (checkAll ((checkAll newList [[MovieObject.mk "B" 5]]).getD [])
        [[MovieObject.mk "B" 5]]).getD []
      ≠ (checkAll newList [[MovieObject.mk "B" 5]]).getD [] := by
  decide

/-- Claim C6: the code contradicts it.  The output buffer is the module list
`newList`, which survives between invocations: after a call on
`[[{title:"C", elo:7}]]`, a later call on the unrelated collection
`[[{title:"D", elo:1}]]` still returns a list containing the earlier call's
entry `{title:"C", elo:7}`, so the output is not constructed freshly per call. -/
theorem checkAll_state_persists_across_calls :
    MovieObject.mk "C" 7
      ∈ (checkAll ((checkAll newList [[MovieObject.mk "C" 7]]).getD [])
          [[MovieObject.mk "D" 1]]).getD [] := by
  decide

/-- Claim C7: names that occur only in groups other than the first never
appear in the output.  Concretely, from the initial module state the input
`[[{title:"A", elo:2}],[{title:"B", elo:9}]]` yields exactly
`[{title:"A", elo:2}]`, with no entry for B; and in general every record of an
output computed from the initial module state carries a title drawn from the
first group. -/
theorem checkAll_names_from_first_group :
    checkAll newList [[MovieObject.mk "A" 2], [MovieObject.mk "B" 9]]
        = some [MovieObject.mk "A" 2] ∧
    ∀ (g0 : List MovieObject) (rest : List (List MovieObject)) (out : List MovieObject),
      checkAll newList (g0 :: rest) = some out →
      ∀ r ∈ out, r.title ∈ g0.map MovieObject.title := by
  constructor
  · decide
  · intro g0 rest out h r hr
    have hout : out
        = g0.map (fun s => MovieObject.mk s.title (calculateTotalElo (g0 :: rest) s.title)) := by
      simpa [checkAll, newList] using h.symm
    subst hout
    rcases List.mem_map.mp hr with ⟨s, hs, hsr⟩
    exact List.mem_map.mpr ⟨s, hs, by rw [← hsr]⟩

/-- Witness for C7: the general clause at a concrete input. -/
theorem checkAll_names_from_first_group_witness :
    (MovieObject.mk "A" 2).title ∈ [MovieObject.mk "A" 2].map MovieObject.title :=
  checkAll_names_from_first_group.2 [MovieObject.mk "A" 2] [] [MovieObject.mk "A" 2]
    (by decide) (MovieObject.mk "A" 2) (by decide)

/-- Claim C8: neither `checkAll` nor `calculateTotalElo` mutates its input.
The source bodies contain no write to `movieList`, its groups, or its records
(the only writes are the local `totalElo` and the module list `newList`), so
in the state-transformer forms that carry the argument through the call, the
post-call value of the collection equals the pre-call value. -/
theorem checkAll_input_unchanged :
    (∀ (st : List MovieObject) (ml : List (List MovieObject))
        (ret : List MovieObject) (after : List (List MovieObject)),
        checkAllS st ml = some (ret, after) → after = ml) ∧
    (∀ (ml : List (List MovieObject)) (n : String), (calculateTotalEloS ml n).2 = ml) := by
  constructor
  · intro st ml ret after h
    unfold checkAllS at h
    rcases Option.map_eq_some'.mp h with ⟨v, hv, hpair⟩
    exact (congrArg Prod.snd hpair).symm
  · intro ml n
    rfl

/-- Witness for C8: the `checkAll` clause at a concrete input. -/
theorem checkAll_input_unchanged_witness :
    ([[MovieObject.mk "A" 2]] : List (List MovieObject)) = [[MovieObject.mk "A" 2]] :=
  checkAll_input_unchanged.1 newList [[MovieObject.mk "A" 2]]
    [MovieObject.mk "A" 2] [[MovieObject.mk "A" 2]] (by decide)

/-- Claim C9: successive calls accumulate into the module list `newList`.
Starting from the initial module state, a call on a non-empty collection
`c1 = g1 :: rest1` followed by a call on a non-empty collection
`c2 = g2 :: rest2` returns, the second time, the first call's entries followed
by the entries freshly computed from `c2`, and its length is
`len(c1[0]) + len(c2[0])`. -/
theorem checkAll_accumulates_into_newList (g1 : List MovieObject)
    (rest1 : List (List MovieObject)) (g2 : List MovieObject)
    (rest2 : List (List MovieObject)) (o1 o2 : List MovieObject)
    (h1 : checkAll newList (g1 :: rest1) = some o1)
    (h2 : checkAll o1 (g2 :: rest2) = some o2) :
    o2 = o1 ++ g2.map (fun (r : MovieObject) =>
        MovieObject.mk r.title (calculateTotalElo (g2 :: rest2) r.title)) ∧
    o2.length = g1.length + g2.length := by
  have ho1 : o1
      = g1.map (fun r => MovieObject.mk r.title (calculateTotalElo (g1 :: rest1) r.title)) := by
    simpa [checkAll, newList] using h1.symm
  have ho2 : o2
      = o1 ++ g2.map (fun r => MovieObject.mk r.title (calculateTotalElo (g2 :: rest2) r.title)) := by
    simpa [checkAll] using h2.symm
  refine ⟨ho2, ?_⟩
  rw [ho2, ho1]
  simp

/-- Witness for C9: two successive calls on the collection
`[[{title:"A", elo:1}]]` from the initial module state. -/
theorem checkAll_accumulates_into_newList_witness :
    ([MovieObject.mk "A" 1, MovieObject.mk "A" 1] : List MovieObject)
        = [MovieObject.mk "A" 1] ++ [MovieObject.mk "A" 1].map (fun (r : MovieObject) =>
            MovieObject.mk r.title (calculateTotalElo [[MovieObject.mk "A" 1]] r.title)) ∧
    ([MovieObject.mk "A" 1, MovieObject.mk "A" 1] : List MovieObject).length
        = ([MovieObject.mk "A" 1] : List MovieObject).length
            + ([MovieObject.mk "A" 1] : List MovieObject).length :=
  checkAll_accumulates_into_newList [MovieObject.mk "A" 1] [] [MovieObject.mk "A" 1] []
    [MovieObject.mk "A" 1] [MovieObject.mk "A" 1, MovieObject.mk "A" 1]
    (by decide) (by decide)

/-- Claim C10: the total computed by `calculateTotalElo` is invariant under
regrouping: it agrees with the single-group collection holding the
concatenation of all groups in order, and it distributes as a sum over
concatenation of collections. -/
theorem calculateTotalElo_regrouping_invariant :
    (∀ (c : List (List MovieObject)) (n : String),
        calculateTotalElo c n = calculateTotalElo [c.flatten] n) ∧
    (∀ (a b : List (List MovieObject)) (n : String),
        calculateTotalElo (a ++ b) n = calculateTotalElo a n + calculateTotalElo b n) := by
  constructor
  · intro c n
    rw [calculateTotalElo_eq_sumFor_spec, calculateTotalElo_eq_sumFor_spec]
    unfold sumFor_spec
    simp
  · intro a b n
    rw [calculateTotalElo_eq_sumFor_spec, calculateTotalElo_eq_sumFor_spec,
      calculateTotalElo_eq_sumFor_spec]
    unfold sumFor_spec
    simp
